import Mathlib

/-!
# dingtalk: signed webhook client

A shallow embedding of `dingtalk/dingtalk.go`.

Go strings are modelled as Lean `String`s, `time.Duration` and `int64` as `Int`,
a Go `error` as an optional message (`none` is `nil`).  Library calls whose
results do not depend on this package (the clock, the HTTP transport, `url.Parse`,
`json.Unmarshal`, the JSON string encoder, `utils.ComputeSignature`) are fields
of an environment `Env` passed explicitly.  The mutex is not modelled: every
operation below is one sequential call.
-/

set_option autoImplicit false

namespace Dingtalk

/-! ## bufio.Scanner with the default split function `ScanLines` -/

/-- The constant `bufio.MaxScanTokenSize`: the scanner's buffer never grows beyond it. -/
def maxScanTokenSize : Nat := 64 * 1024

/-- The helper `dropCR` of `bufio.ScanLines`: a trailing carriage return is removed.
The argument is the line in reverse order, so the trailing byte is its head. -/
def dropCR : List Char → List Char
  | '\r' :: rest => rest
  | line => line

/-- The tokens produced by repeated `Scan()` calls on the remaining input.
`cur` is the current line read so far (reversed), `size` its length in bytes.
A line is delivered when its newline is met, or at the end of the input when it
is non-empty; a line that does not fit the buffer together with its terminator
(`size ≥ maxScanTokenSize`) makes `Scan` return false (`ErrTooLong`) and ends
the loop. -/
def scanFrom : List Char → List Char → Nat → List String
  | [], cur, size =>
    if cur = [] then []
    else if maxScanTokenSize ≤ size then []
    else [String.mk (dropCR cur).reverse]
  | c :: rest, cur, size =>
    if c = '\n' then
      if maxScanTokenSize ≤ size then []
      else String.mk (dropCR cur).reverse :: scanFrom rest [] 0
    else scanFrom rest (c :: cur) (size + c.utf8Size)

/-- All lines `buf.Text()` yields while `buf.Scan()` holds, for
`bufio.NewScanner(strings.NewReader(text))`. -/
def scanLines (text : String) : List String :=
  scanFrom text.data [] 0

/-! ## The link template parser -/

/-- Modelled from the spec: the type `robot.Link` (package `robot` is not part of
the sources at hand); a link card with a title, a body text, a message URL and a
picture URL, all strings. -/
structure Link where
  Title : String
  Text : String
  MessageURL : String
  PicURL : String
  deriving DecidableEq, Repr

/-- The loop variables of `parseLinkWithTemplate`: the line counter `n`, the
byte buffer `b` and the link `msg` under construction. -/
structure ParseState where
  n : Nat
  b : String
  msg : Link
  deriving DecidableEq, Repr

/-- One iteration of the `for buf.Scan()` loop of `parseLinkWithTemplate`. -/
def parseLine (st : ParseState) (line : String) : ParseState :=
  match st.n with
  | 0 => { n := st.n + 1, b := st.b, msg := { st.msg with Title := line } }
  | 1 => { n := st.n + 1, b := st.b, msg := { st.msg with MessageURL := line } }
  | 2 => { n := st.n + 1, b := st.b, msg := { st.msg with PicURL := line } }
  | _ => { n := st.n + 1, b := (st.b ++ line).push '\n', msg := st.msg }

/-- The function `parseLinkWithTemplate` (its second argument `data` is unused by
the source and omitted). -/
def parseLinkWithTemplate (text : String) : Link :=
  let start : ParseState :=
    { n := 0, b := "", msg := { Title := "", Text := "", MessageURL := "", PicURL := "" } }
  let st := (scanLines text).foldl parseLine start
  { st.msg with Text := st.b }

/-! ## Library functions used by the client -/

/-- A Go `error` value: `none` is `nil`, `some msg` an error whose `Error()` is `msg`. -/
abbrev GoError := Option String

/-- The result of a call that may end in a run-time panic (nil dereference). -/
inductive Outcome (α : Type) where
  | ret (a : α)
  | panic
  deriving DecidableEq, Repr

/-- The function `strconv.FormatInt(i, 10)`, also the rendering of `%d`. -/
def FormatInt (i : Int) : String := toString i

/-- Byte-wise string order, as used by `slices.Sort` on strings (for UTF-8 this is
the order of the code points). -/
def lessChars : List Char → List Char → Bool
  | _, [] => false
  | [], _ :: _ => true
  | a :: as, b :: bs =>
    if a.toNat < b.toNat then true
    else if b.toNat < a.toNat then false
    else lessChars as bs

/-- The sixteen digits `upperhex` of `net/url`. -/
def upperhex : List Char :=
  ['0', '1', '2', '3', '4', '5', '6', '7', '8', '9', 'A', 'B', 'C', 'D', 'E', 'F']

/-- The predicate `shouldEscape(c, encodeQueryComponent)` of `net/url`: everything
but the unreserved characters is escaped. -/
def shouldEscape (c : Nat) : Bool :=
  if (97 ≤ c ∧ c ≤ 122) ∨ (65 ≤ c ∧ c ≤ 90) ∨ (48 ≤ c ∧ c ≤ 57) then false
  else if c = 45 ∨ c = 95 ∨ c = 46 ∨ c = 126 then false
  else true

/-- How `url.QueryEscape` writes one byte: a space becomes `+`, an escaped byte
becomes `%XX`, any other byte is copied. -/
def escapeByte (c : Nat) : List Char :=
  if shouldEscape c then
    if c = 32 then ['+']
    else ['%', upperhex.getD (c / 16) '0', upperhex.getD (c % 16) '0']
  else [Char.ofNat c]

/-- The function `url.QueryEscape`, over the UTF-8 bytes of the string. -/
def QueryEscape (s : String) : String :=
  String.mk (((s.data.flatMap String.utf8EncodeChar).map UInt8.toNat).flatMap escapeByte)

/-- The type `url.Values`: each key with its list of values. -/
abbrev Values := List (String × List String)

/-- The method `Values.Add`: append the value to the values of the key. -/
def Values.Add : Values → String → String → Values
  | [], key, value => [(key, [value])]
  | (k, vs) :: rest, key, value =>
    if k = key then (k, vs ++ [value]) :: rest
    else (k, vs) :: Values.Add rest key value

/-- Insertion of an entry into a list of entries sorted by key. -/
def insertByKey (e : String × List String) : Values → Values
  | [] => [e]
  | f :: rest =>
    if lessChars f.1.data e.1.data then f :: insertByKey e rest else e :: f :: rest

/-- The entries sorted by key (`slices.Sort(keys)` in `Values.Encode`). -/
def sortByKey : Values → Values
  | [] => []
  | e :: rest => insertByKey e (sortByKey rest)

/-- What `Values.Encode` writes to its buffer for one key and one value. -/
def encodePair (buf key value : String) : String :=
  (if buf = "" then buf else buf ++ "&") ++ QueryEscape key ++ "=" ++ QueryEscape value

/-- The method `Values.Encode`: `key=value` pairs, sorted by key, joined by `&`,
keys and values query-escaped. -/
def Values.Encode (v : Values) : String :=
  (sortByKey v).foldl
    (fun buf kv => kv.2.foldl (fun buf value => encodePair buf kv.1 value) buf) ""

/-- The type `http.Header` of a response: canonical header names with their values. -/
abbrev Header := List (String × List String)

/-- The method `Header.Get` for a key already in canonical form: the first value
of the key, the empty string when the key is absent. -/
def Header.Get (h : Header) (key : String) : String :=
  match h.lookup key with
  | some (v :: _) => v
  | _ => ""

/-! ## The data model of the client -/

/-- The interface `Requester`, as the values its four methods return. -/
structure Requester where
  GetMethod : String
  GetHeader : List (String × String)
  GetBody : Except String String
  GetSuccessCode : Int

/-- The struct `ResponseMsg`. -/
structure ResponseMsg where
  ErrCode : Int
  ErrMsg : String
  ApplicationHost : String
  ServiceHost : String
  deriving DecidableEq, Repr

/-- A `resty.Response` as seen through `StatusCode()`, `Body()` and `Header()`. -/
structure Response where
  StatusCode : Int
  Body : String
  Header : Header
  deriving DecidableEq, Repr

/-- One HTTP call handed to the transport: method, URL, headers and, for POST and
PUT, the body. -/
structure Call where
  method : String
  url : String
  header : List (String × String)
  body : Option String
  deriving DecidableEq, Repr

/-- The part of a `resty.Client` the package touches: its timeout. -/
structure Client where
  timeout : Int
  deriving DecidableEq, Repr

/-- The struct `DingTalk` (without its mutex); `client` and `response` are
pointers, `none` is `nil`. -/
structure DingTalk where
  url : String
  secret : String
  timeout : Int
  client : Option Client
  response : Option Response
  deriving DecidableEq, Repr

/-- The type `Option` of the package: a function mutating the client. -/
abbrev DingTalkOption := DingTalk → DingTalk

/-- What the package obtains from outside: the clock, `utils.ComputeSignature`
(package `utils` is not part of the sources at hand), `url.Parse` (only its error),
`json.Unmarshal` into a zero `ResponseMsg`, the JSON encoding of a string, and the
HTTP transport, which answers a call with a response pointer and an error. -/
structure Env where
  now : Int
  ComputeSignature : Int → String → String
  urlParse : String → GoError
  jsonUnmarshal : String → Except String ResponseMsg
  jsonString : String → String
  transport : Call → Option Response × GoError

/-- The constant `time.Second`, in nanoseconds. -/
def Second : Int := 1000000000

/-! ## Construction and configuration -/

/-- The option `WithSecret`. -/
def WithSecret (secret : String) : DingTalkOption :=
  fun dt => { dt with secret := secret }

/-- The option `WithTimeout`. -/
def WithTimeout (timeout : Int) : DingTalkOption :=
  fun dt => { dt with timeout := timeout }

/-- The method `genQueryParams`. -/
def genQueryParams (env : Env) (dt : DingTalk) : String :=
  let params : Values := []
  let params :=
    if dt.secret ≠ "" then
      let timestamp := env.now.tdiv 1000000
      let sign := env.ComputeSignature timestamp dt.secret
      let params := Values.Add params "timestamp" (FormatInt timestamp)
      Values.Add params "sign" sign
    else params
  Values.Encode params

/-- The separator chosen by `initClient`. -/
def step (url : String) : String :=
  if '?' ∈ url.data then "&" else "?"

/-- The method `initClient`: `strings.Join([]string{dt.url, params}, step)` and a
fresh resty client. -/
def initClient (env : Env) (dt : DingTalk) : DingTalk :=
  let params := genQueryParams env dt
  { dt with url := dt.url ++ step dt.url ++ params, client := some { timeout := 0 } }

/-- The constructor `New`. -/
def New (env : Env) (url : String) (options : List DingTalkOption) : DingTalk :=
  let dt : DingTalk :=
    { url := url, secret := "", timeout := 5 * Second, client := none, response := none }
  let dt := options.foldl (fun dt option => option dt) dt
  initClient env dt

/-- The method `GetSecret`. -/
def GetSecret (dt : DingTalk) : String := dt.secret

/-- The method `SetSecret`. -/
def SetSecret (dt : DingTalk) (secret : String) : DingTalk :=
  { dt with secret := secret }

/-- The method `SetTimeout`; the call on a nil resty client panics. -/
def SetTimeout (dt : DingTalk) (timeout : Int) : Outcome DingTalk :=
  match dt.client with
  | none => .panic
  | some _ => .ret { dt with client := some { timeout := timeout } }

/-! ## Request dispatch and response validation -/

/-- The method `checkURL`. -/
def checkURL (env : Env) (dt : DingTalk) : GoError :=
  match env.urlParse dt.url with
  | some err => some err
  | none => none

/-- The result of `request`: the client afterwards, the transport calls issued, and
the returned pair (or a panic). -/
structure Dispatched where
  dt : DingTalk
  calls : List Call
  result : Outcome (String × GoError)

/-- The method `request`.  In each case of the switch the transport's error is
assigned to the local `err`, which is not read again: the function returns
`string(body), nil`.  Building the request on a nil resty client panics. -/
def request (env : Env) (dt : DingTalk) (req : Requester) : Dispatched :=
  let method := req.GetMethod
  let header := req.GetHeader
  match req.GetBody with
  | .error err => { dt := dt, calls := [], result := .ret ("", some err) }
  | .ok body =>
    match dt.client with
    | none => { dt := dt, calls := [], result := .panic }
    | some _ =>
      if method = "GET" then
        let call : Call := { method := "GET", url := dt.url, header := header, body := none }
        let (response, _err) := env.transport call
        { dt := { dt with response := response }, calls := [call], result := .ret (body, none) }
      else if method = "POST" then
        let call : Call :=
          { method := "POST", url := dt.url, header := header, body := some body }
        let (response, _err) := env.transport call
        { dt := { dt with response := response }, calls := [call], result := .ret (body, none) }
      else if method = "PUT" then
        let call : Call := { method := "PUT", url := dt.url, header := header, body := some body }
        let (response, _err) := env.transport call
        { dt := { dt with response := response }, calls := [call], result := .ret (body, none) }
      else { dt := dt, calls := [], result := .ret (body, none) }

/-- The function `json.Marshal` on a `ResponseMsg`: the fields in declaration order
under their tags, the two host fields left out when empty (`omitempty`). -/
def jsonMarshal (env : Env) (r : ResponseMsg) : Except String String :=
  .ok ("\x7b\"errcode\":" ++ FormatInt r.ErrCode ++ ",\"errmsg\":" ++ env.jsonString r.ErrMsg
    ++ (if r.ApplicationHost = "" then ""
        else ",\"application_host\":" ++ env.jsonString r.ApplicationHost)
    ++ (if r.ServiceHost = "" then ""
        else ",\"service_host\":" ++ env.jsonString r.ServiceHost)
    ++ "\x7d")

/-- The method `ResponseMsg.String`. -/
def ResponseMsg.String (env : Env) (r : ResponseMsg) : String :=
  match jsonMarshal env r with
  | .error err => err
  | .ok data => data

/-- The method `checkResponse`; it dereferences `dt.response`, so a nil response
panics. -/
def checkResponse (env : Env) (dt : DingTalk) (req : Requester) : Outcome GoError :=
  match dt.response with
  | none => .panic
  | some response =>
    let data := response.Body
    if response.StatusCode ≠ 200 then
      .ret (some ("invalid http status " ++ FormatInt response.StatusCode ++ ", body: " ++ data))
    else
      match env.jsonUnmarshal data with
      | .error err => .ret (some ("body: " ++ data ++ ", " ++ err))
      | .ok respMsg =>
        let respMsg := { respMsg with ApplicationHost := response.Header.Get "Application-Host" }
        let respMsg := { respMsg with ServiceHost := response.Header.Get "Location-Host" }
        if respMsg.ErrCode ≠ req.GetSuccessCode then
          .ret (some (respMsg.String env))
        else .ret none

/-- The result of `Request`: the client afterwards, the transport calls issued, and
the returned error (or a panic). -/
structure Requested where
  dt : DingTalk
  calls : List Call
  result : Outcome GoError

/-- The method `Request`. -/
def Request (env : Env) (dt : DingTalk) (req : Requester) : Requested :=
  match checkURL env dt with
  | some err => { dt := dt, calls := [], result := .ret (some err) }
  | none =>
    let d := request env dt req
    match d.result with
    | .panic => { dt := d.dt, calls := d.calls, result := .panic }
    | .ret (_, some err) => { dt := d.dt, calls := d.calls, result := .ret (some err) }
    | .ret (_, none) =>
      match checkResponse env d.dt req with
      | .panic => { dt := d.dt, calls := d.calls, result := .panic }
      | .ret (some err) => { dt := d.dt, calls := d.calls, result := .ret (some err) }
      | .ret none => { dt := d.dt, calls := d.calls, result := .ret none }

/-- The method `GetResponse`. -/
def GetResponse (dt : DingTalk) : Option Response × GoError :=
  (dt.response, none)

/-! ## Vocabulary of the statements -/

/-- An option as a caller can build it: by `WithSecret` or by `WithTimeout`. -/
inductive OptionArg where
  | secret (s : String)
  | timeout (t : Int)
  deriving DecidableEq, Repr

/-- The option an `OptionArg` stands for. -/
def OptionArg.toOption : OptionArg → DingTalkOption
  | .secret s => WithSecret s
  | .timeout t => WithTimeout t

/-- The argument of the last `WithSecret` of a list of options, if there is one. -/
def lastSecret : List OptionArg → Option String
  | [] => none
  | .secret s :: rest => (lastSecret rest).orElse (fun _ => some s)
  | .timeout _ :: rest => lastSecret rest

/-- The argument of the last `WithTimeout` of a list of options, if there is one. -/
def lastTimeout : List OptionArg → Option Int
  | [] => none
  | .timeout t :: rest => (lastTimeout rest).orElse (fun _ => some t)
  | .secret _ :: rest => lastTimeout rest

/-- Splitting a list of characters at every occurrence of a separator. -/
def splitOnChar (sep : Char) : List Char → List (List Char)
  | [] => [[]]
  | c :: rest =>
    if c = sep then [] :: splitOnChar sep rest
    else
      match splitOnChar sep rest with
      | [] => [[c]]
      | piece :: pieces => (c :: piece) :: pieces

/-- The pieces of a split without the last one when that one is empty. -/
def dropLastEmpty : List (List Char) → List (List Char)
  | [] => []
  | [piece] => if piece = [] then [] else [piece]
  | piece :: next :: rest => piece :: dropLastEmpty (next :: rest)

/-- A sequence of `SetSecret` calls applied to a client, one secret after the other. -/
def setSecrets (dt : DingTalk) (secrets : List String) : DingTalk :=
  secrets.foldl SetSecret dt

/-- The characters of a decimal rendering: the ten digits and the minus sign. -/
def plainChars : List Char := ['0', '1', '2', '3', '4', '5', '6', '7', '8', '9', '-']

/-- The number of `&`-separated fields of a query whose name is `name`. -/
def fieldCount (name : String) (query : List Char) : Nat :=
  ((splitOnChar '&' query).filter
    (fun field => field.takeWhile (fun c => c ≠ '=') = name.data)).length

/-- The number of parameters called `name` in the query of a URL: the query is
what follows the first `?`, its parameters are separated by `&`, and the name of a
parameter is what precedes its first `=`. -/
def queryParamCount (name : String) (url : String) : Nat :=
  fieldCount name ((url.data.dropWhile (fun c => c ≠ '?')).drop 1)

/-- The signature parameters `genQueryParams` encodes for a non-empty secret. -/
def signatureParams (env : Env) (secret : String) : String :=
  "sign=" ++ QueryEscape (env.ComputeSignature (env.now.tdiv 1000000) secret)
    ++ "&timestamp=" ++ FormatInt (env.now.tdiv 1000000)

/-- An environment for the concrete evaluations: a fixed clock, a stand-in
signature, a URL parser that accepts everything, a decoder that knows two bodies,
and a transport that fails with a connection error and an empty response. -/
def sampleEnv : Env :=
  { now := 1700000000123456789
    ComputeSignature := fun _ secret => "sig+" ++ secret
    urlParse := fun _ => none
    jsonUnmarshal := fun body =>
      if body = "\x7b\"errcode\":0,\"errmsg\":\"ok\"\x7d" then
        .ok { ErrCode := 0, ErrMsg := "ok", ApplicationHost := "", ServiceHost := "" }
      else if body = "\x7b\"errcode\":310000,\"errmsg\":\"bad sign\",\"service_host\":\"b\"\x7d" then
        .ok { ErrCode := 310000, ErrMsg := "bad sign", ApplicationHost := "", ServiceHost := "b" }
      else .error "invalid character"
    jsonString := fun s => "\"" ++ s ++ "\""
    transport := fun _ =>
      (some { StatusCode := 0, Body := "", Header := [] }, some "dial tcp: i/o timeout") }

/-- A request of the given method with a small JSON body, expecting code 0. -/
def sampleRequest (method : String) : Requester :=
  { GetMethod := method
    GetHeader := [("Content-Type", "application/json")]
    GetBody := .ok "\x7b\"msgtype\":\"text\"\x7d"
    GetSuccessCode := 0 }

/-- A 404 response whose body is valid JSON with `errcode` 0. -/
def notFoundResponse : Response :=
  { StatusCode := 404, Body := "\x7b\"errcode\":0,\"errmsg\":\"ok\"\x7d", Header := [] }

/-- A 200 response reporting the application error 310000, with a service host in
the body and an application host in the headers. -/
def badSignResponse : Response :=
  { StatusCode := 200
    Body := "\x7b\"errcode\":310000,\"errmsg\":\"bad sign\",\"service_host\":\"b\"\x7d"
    Header := [("Application-Host", ["app.example"])] }

/-- A 200 response reporting code 0, without host headers. -/
def okResponse : Response :=
  { StatusCode := 200, Body := "\x7b\"errcode\":0,\"errmsg\":\"ok\"\x7d", Header := [] }

/-- A client holding the given last response. -/
def sampleClient (response : Option Response) : DingTalk :=
  { url := "http://h?", secret := "", timeout := 5 * Second, client := some { timeout := 0 },
    response := response }

/-! ## Lemmas on splitting and scanning -/

theorem splitOnChar_ne_nil (sep : Char) (l : List Char) : splitOnChar sep l ≠ [] := by
  cases l with
  | nil => simp [splitOnChar]
  | cons c rest =>
    unfold splitOnChar
    split_ifs
    · simp
    · split <;> simp

theorem splitOnChar_append (sep : Char) (a b : List Char) :
    splitOnChar sep (a ++ sep :: b) = splitOnChar sep a ++ splitOnChar sep b := by
  induction a with
  | nil => simp [splitOnChar]
  | cons c rest ih =>
    have hstep : ∀ l : List Char, splitOnChar sep (c :: l) =
        if c = sep then [] :: splitOnChar sep l
        else
          match splitOnChar sep l with
          | [] => [[c]]
          | piece :: pieces => (c :: piece) :: pieces := fun _ => rfl
    rw [List.cons_append, hstep, hstep, ih]
    by_cases hc : c = sep
    · simp [hc]
    · simp only [hc, if_false]
      cases hr : splitOnChar sep rest with
      | nil => exact absurd hr (splitOnChar_ne_nil sep rest)
      | cons piece pieces => rfl

theorem splitOnChar_of_not_mem (sep : Char) (l : List Char) (h : sep ∉ l) :
    splitOnChar sep l = [l] := by
  induction l with
  | nil => rfl
  | cons c rest ih =>
    have hc : c ≠ sep := fun e => h (by simp [e])
    have hr : sep ∉ rest := fun e => h (List.mem_cons_of_mem _ e)
    simp [splitOnChar, hc, ih hr]

theorem dropLastEmpty_cons (piece : List Char) (l : List (List Char)) (h : l ≠ []) :
    dropLastEmpty (piece :: l) = piece :: dropLastEmpty l := by
  cases l with
  | nil => exact absurd rfl h
  | cons a b => rfl

theorem dropCR_of_no_cr (cur : List Char) (h : '\r' ∉ cur) : dropCR cur = cur := by
  cases cur with
  | nil => rfl
  | cons c rest =>
    have hc : c ≠ '\r' := fun e => h (by simp [e])
    unfold dropCR
    split
    · rename_i heq
      simp at heq
      exact absurd heq.1 hc
    · rfl

/-- On input without carriage returns that fits the buffer, the scanner's state
after reading `cur` of the current line yields the newline-separated pieces of what
is left, the empty piece after a final newline excepted. -/
theorem scanFrom_eq_split (rest : List Char) :
    ∀ (cur : List Char) (size : Nat), '\n' ∉ cur → '\r' ∉ cur → '\r' ∉ rest →
      size + (rest.map Char.utf8Size).sum < maxScanTokenSize →
      scanFrom rest cur size =
        (dropLastEmpty (splitOnChar '\n' (cur.reverse ++ rest))).map String.mk := by
  induction rest with
  | nil =>
    intro cur size hn hr _ hs
    have hs2 : ¬ maxScanTokenSize ≤ size := by simp at hs; omega
    have hsplit : splitOnChar '\n' (cur.reverse ++ []) = [cur.reverse] := by
      rw [List.append_nil]
      exact splitOnChar_of_not_mem _ _ (by simpa using hn)
    rw [hsplit]
    by_cases hc : cur = []
    · simp [scanFrom, hc, dropLastEmpty]
    · simp [scanFrom, hc, hs2, dropLastEmpty, dropCR_of_no_cr cur hr]
  | cons c rest ih =>
    intro cur size hn hr hrest hs
    have hrest2 : '\r' ∉ rest := fun e => hrest (List.mem_cons_of_mem _ e)
    have hc2 : c ≠ '\r' := fun e => hrest (by simp [e])
    simp only [List.map_cons, List.sum_cons] at hs
    by_cases hc : c = '\n'
    · subst hc
      have hs2 : ¬ maxScanTokenSize ≤ size := by omega
      have hsplit : splitOnChar '\n' (cur.reverse ++ '\n' :: rest) =
          cur.reverse :: splitOnChar '\n' rest := by
        rw [splitOnChar_append, splitOnChar_of_not_mem _ _ (by simpa using hn)]
        rfl
      rw [hsplit, dropLastEmpty_cons _ _ (splitOnChar_ne_nil _ _)]
      have := ih [] 0 (by simp) (by simp) hrest2 (by omega)
      simp only [List.reverse_nil, List.nil_append] at this
      simp [scanFrom, hs2, this, dropCR_of_no_cr cur hr]
    · have := ih (c :: cur) (size + c.utf8Size)
        (by simp [hn, Ne.symm hc]) (by simp [hr, Ne.symm hc2]) hrest2 (by omega)
      simp only [List.reverse_cons, List.append_assoc, List.singleton_append] at this
      simp [scanFrom, hc, this]

/-- For a text without carriage returns and shorter than the scanner's buffer, the
scanned lines are the text split at newlines, without the empty piece a final
newline leaves. -/
theorem scanLines_eq_split (text : String) (hr : '\r' ∉ text.data)
    (hs : (text.data.map Char.utf8Size).sum < maxScanTokenSize) :
    scanLines text = (dropLastEmpty (splitOnChar '\n' text.data)).map String.mk := by
  have := scanFrom_eq_split text.data [] 0 (by simp) (by simp) hr (by omega)
  simpa [scanLines] using this

/-! ## Lemmas on the parser loop -/

theorem push_newline (s : String) : s.push '\n' = s ++ "\n" := by
  apply String.ext
  simp [String.push]

theorem join_cons (s : String) (ss : List String) :
    String.join (s :: ss) = s ++ String.join ss := by
  apply String.ext
  simp [String.data_join]

theorem parseLine_rest (st : ParseState) (line : String) (h : 3 ≤ st.n) :
    parseLine st line = { n := st.n + 1, b := st.b ++ (line ++ "\n"), msg := st.msg } := by
  obtain ⟨k, hk⟩ : ∃ k, st.n = k + 3 := ⟨st.n - 3, by omega⟩
  simp [parseLine, hk, push_newline, String.append_assoc]

/-- Once three lines have been consumed, the loop only appends to the buffer. -/
theorem foldl_parseLine_rest (rest : List String) :
    ∀ st : ParseState, 3 ≤ st.n →
      (rest.foldl parseLine st).msg = st.msg ∧
      (rest.foldl parseLine st).b =
        st.b ++ String.join (rest.map (fun l => l ++ "\n")) := by
  induction rest with
  | nil =>
    intro st _
    refine ⟨rfl, ?_⟩
    apply String.ext
    simp [String.data_join]
  | cons l rest ih =>
    intro st h
    have hstep := parseLine_rest st l h
    have := ih (parseLine st l) (by rw [hstep]; show 3 ≤ st.n + 1; omega)
    simp only [List.foldl_cons, List.map_cons, join_cons]
    rw [this.1, this.2, hstep]
    simp [String.append_assoc]

/-- The closed form of the parser in terms of the scanned lines. -/
theorem parse_closed_form (text : String) :
    parseLinkWithTemplate text =
      { Title := (scanLines text).getD 0 "",
        MessageURL := (scanLines text).getD 1 "",
        PicURL := (scanLines text).getD 2 "",
        Text := String.join (((scanLines text).drop 3).map (fun l => l ++ "\n")) } := by
  unfold parseLinkWithTemplate
  generalize scanLines text = ls
  match ls with
  | [] => rfl
  | [a] => rfl
  | [a, b] => rfl
  | a :: b :: c :: rest =>
    have h := foldl_parseLine_rest rest
      { n := 3, b := "", msg := { Title := a, Text := "", MessageURL := b, PicURL := c } }
      (by simp)
    simp only [List.foldl_cons, parseLine, List.drop_succ_cons, List.drop_zero,
      List.getD_cons_zero, List.getD_cons_succ]
    simp only [Nat.zero_add, Nat.reduceAdd]
    rw [h.1, h.2]
    simp

theorem join_lines_eq_intercalate (l : String) (ls : List String) :
    String.join ((l :: ls).map (fun x => x ++ "\n")) =
      String.intercalate "\n" (l :: ls) ++ "\n" := by
  have go : ∀ (rest : List String) (acc : String),
      String.intercalate.go acc "\n" rest ++ "\n" =
        acc ++ "\n" ++ String.join (rest.map (fun x => x ++ "\n")) := by
    intro rest
    induction rest with
    | nil =>
      intro acc
      apply String.ext
      simp [String.intercalate.go, String.data_join]
    | cons r rest ih =>
      intro acc
      simp only [String.intercalate.go, List.map_cons, join_cons]
      rw [ih]
      simp [String.append_assoc]
  simp only [List.map_cons, join_cons, String.intercalate]
  rw [go]


/-! ## The link template parser -/

/-- C6: for every text, with the lines the scanner delivers (the text split at
newlines when it holds no carriage return and fits the scanner's buffer), the
parser returns the link whose title, message URL and picture URL are the first,
second and third line (empty when the line does not exist) and whose text is every
later line followed by a newline, empty when there are at most three lines; the
two examples of the specification evaluate as stated. -/
theorem parseLinkWithTemplate_positional :
    (∀ text : String, '\r' ∉ text.data →
      (text.data.map Char.utf8Size).sum < maxScanTokenSize →
      scanLines text = (dropLastEmpty (splitOnChar '\n' text.data)).map String.mk) ∧
    (∀ text : String,
      parseLinkWithTemplate text =
        { Title := (scanLines text).getD 0 "",
          MessageURL := (scanLines text).getD 1 "",
          PicURL := (scanLines text).getD 2 "",
          Text := String.join (((scanLines text).drop 3).map (fun l => l ++ "\n")) }) ∧
    (∀ text : String,
      (parseLinkWithTemplate text).Text =
        if (scanLines text).length ≤ 3 then ""
        else String.join (((scanLines text).drop 3).map (fun l => l ++ "\n"))) ∧
    parseLinkWithTemplate "T\nhttp://u\nhttp://p\nline1\nline2" =
      { Title := "T", MessageURL := "http://u", PicURL := "http://p",
        Text := "line1\nline2\n" } ∧
    parseLinkWithTemplate "T" =
      { Title := "T", MessageURL := "", PicURL := "", Text := "" } := by
  refine ⟨scanLines_eq_split, parse_closed_form, ?_, by decide, by decide⟩
  intro text
  rw [parse_closed_form]
  simp only
  split_ifs with h
  · rw [List.drop_eq_nil_of_le h]
    rfl
  · rfl

/-- C6 at a text of four lines that ends in a newline: the scanned lines are the
four pieces of the split, and the parser maps them by position. -/
theorem parseLinkWithTemplate_positional_witness :
    '\r' ∉ "T\nhttp://u\nhttp://p\nline1\n".data ∧
    ("T\nhttp://u\nhttp://p\nline1\n".data.map Char.utf8Size).sum < maxScanTokenSize ∧
    scanLines "T\nhttp://u\nhttp://p\nline1\n" =
      (dropLastEmpty (splitOnChar '\n' "T\nhttp://u\nhttp://p\nline1\n".data)).map String.mk ∧
    scanLines "T\nhttp://u\nhttp://p\nline1\n" = ["T", "http://u", "http://p", "line1"] ∧
    parseLinkWithTemplate "T\nhttp://u\nhttp://p\nline1\n" =
      { Title := "T", MessageURL := "http://u", PicURL := "http://p", Text := "line1\n" } :=
  ⟨by decide, by decide,
    parseLinkWithTemplate_positional.1 "T\nhttp://u\nhttp://p\nline1\n" (by decide) (by decide),
    by decide, by decide⟩

/-- C7, as the claim states it, fails: on a text with five lines the body text
ends in a newline, so it is not the remaining lines joined by newlines. -/
theorem parseLinkWithTemplate_text_not_joined :
    3 < (scanLines "T\nhttp://u\nhttp://p\nline1\nline2").length ∧
    (parseLinkWithTemplate "T\nhttp://u\nhttp://p\nline1\nline2").Text ≠
      String.intercalate "\n" ((scanLines "T\nhttp://u\nhttp://p\nline1\nline2").drop 3) := by
  decide

/-- C7, amended: for every text with more than three lines the body text is the
lines after the third joined by newlines and followed by one more newline. -/
theorem parseLinkWithTemplate_text_joined_newline (text : String)
    (h : 3 < (scanLines text).length) :
    (parseLinkWithTemplate text).Text =
      String.intercalate "\n" ((scanLines text).drop 3) ++ "\n" := by
  rw [parse_closed_form]
  simp only
  generalize hls : scanLines text = ls at h
  match ls, h with
  | a :: b :: c :: d :: rest, _ =>
    simp only [List.drop_succ_cons, List.drop_zero]
    exact join_lines_eq_intercalate d rest

/-- The amended C7 at the five-line example. -/
theorem parseLinkWithTemplate_text_joined_newline_witness :
    3 < (scanLines "T\nhttp://u\nhttp://p\nline1\nline2").length ∧
    (parseLinkWithTemplate "T\nhttp://u\nhttp://p\nline1\nline2").Text =
      String.intercalate "\n" ((scanLines "T\nhttp://u\nhttp://p\nline1\nline2").drop 3)
        ++ "\n" :=
  ⟨by decide, parseLinkWithTemplate_text_joined_newline _ (by decide)⟩


/-! ## Options -/

/-- The option loop of `New` changes the secret and the timeout only, and each to
the argument of the last option that sets it. -/
theorem foldl_options (args : List OptionArg) :
    ∀ dt : DingTalk,
      ((args.map OptionArg.toOption).foldl (fun dt option => option dt) dt) =
        { dt with
          secret := (lastSecret args).getD dt.secret
          timeout := (lastTimeout args).getD dt.timeout } := by
  induction args with
  | nil => intro dt; rfl
  | cons a rest ih =>
    intro dt
    simp only [List.map_cons, List.foldl_cons]
    rw [ih]
    cases a with
    | secret s =>
      cases h : lastSecret rest <;> simp [OptionArg.toOption, WithSecret, lastSecret, lastTimeout, h]
    | timeout t =>
      cases h : lastTimeout rest <;> simp [OptionArg.toOption, WithTimeout, lastSecret, lastTimeout, h]

/-- C9: `New` applies the options in list order; the client's secret is the
argument of the last `WithSecret` (empty if there is none) and its timeout field
the argument of the last `WithTimeout` (five seconds if there is none). -/
theorem New_options_in_order (env : Env) (url : String) (args : List OptionArg) :
    (New env url (args.map OptionArg.toOption)).secret = (lastSecret args).getD "" ∧
    (New env url (args.map OptionArg.toOption)).timeout =
      (lastTimeout args).getD 5000000000 := by
  constructor <;> simp [New, foldl_options, initClient, Second]

/-- The last secret and the last timeout of a list of four options. -/
theorem lastSecret_lastTimeout_eval :
    lastSecret [.secret "a", .timeout 3, .secret "b", .timeout 4] = some "b" ∧
    lastTimeout [.secret "a", .timeout 3, .secret "b", .timeout 4] = some 4 := by
  decide

/-! ## Response validation -/

/-- C5: a response whose status is not 200 fails with the HTTP status error for
every body; the decoder plays no part, the result is the same under every
environment and every success code. -/
theorem checkResponse_status_not_ok (env : Env) (dt : DingTalk) (req : Requester)
    (response : Response) (hr : dt.response = some response)
    (hs : response.StatusCode ≠ 200) :
    checkResponse env dt req =
      .ret (some ("invalid http status " ++ FormatInt response.StatusCode ++ ", body: "
        ++ response.Body)) ∧
    ∀ (env2 : Env) (req2 : Requester), checkResponse env2 dt req2 = checkResponse env dt req := by
  have h : ∀ (e : Env) (r : Requester), checkResponse e dt r =
      .ret (some ("invalid http status " ++ FormatInt response.StatusCode ++ ", body: "
        ++ response.Body)) := by
    intro e r
    simp [checkResponse, hr, hs]
  exact ⟨h env req, fun e r => by rw [h e r, h env req]⟩

/-- C5 at a 404 response whose body is valid JSON carrying the expected code 0. -/
theorem checkResponse_status_not_ok_witness :
    (sampleClient (some notFoundResponse)).response = some notFoundResponse ∧
    notFoundResponse.StatusCode ≠ 200 ∧
    (checkResponse sampleEnv (sampleClient (some notFoundResponse)) (sampleRequest "POST") =
      .ret (some ("invalid http status " ++ FormatInt notFoundResponse.StatusCode ++ ", body: "
        ++ notFoundResponse.Body)) ∧
     ∀ (env2 : Env) (req2 : Requester),
      checkResponse env2 (sampleClient (some notFoundResponse)) req2 =
        checkResponse sampleEnv (sampleClient (some notFoundResponse)) (sampleRequest "POST")) :=
  ⟨rfl, by decide,
    checkResponse_status_not_ok sampleEnv (sampleClient (some notFoundResponse))
      (sampleRequest "POST") notFoundResponse rfl (by decide)⟩

/-- The 404 response carries a body that decodes to the expected code 0, and is
rejected with the status error all the same. -/
theorem checkResponse_not_found_eval :
    sampleEnv.jsonUnmarshal notFoundResponse.Body =
      .ok { ErrCode := 0, ErrMsg := "ok", ApplicationHost := "", ServiceHost := "" } ∧
    checkResponse sampleEnv (sampleClient (some notFoundResponse)) (sampleRequest "POST") =
      .ret (some "invalid http status 404, body: \x7b\"errcode\":0,\"errmsg\":\"ok\"\x7d") :=
  ⟨rfl, by decide⟩

/-- C4: for a 200 response whose body decodes to a message, validation succeeds
exactly when the message's errcode is the request's success code; when the codes
differ the error text is the JSON rendering of the message, which shows the
errcode and the errmsg. -/
theorem checkResponse_success_iff_code (env : Env) (dt : DingTalk) (req : Requester)
    (response : Response) (m : ResponseMsg) (hr : dt.response = some response)
    (hs : response.StatusCode = 200) (hm : env.jsonUnmarshal response.Body = .ok m) :
    (checkResponse env dt req = .ret none ↔ m.ErrCode = req.GetSuccessCode) ∧
    (m.ErrCode ≠ req.GetSuccessCode →
      ∃ (shown : ResponseMsg) (hosts : String),
        shown.ErrCode = m.ErrCode ∧ shown.ErrMsg = m.ErrMsg ∧
        checkResponse env dt req = .ret (some (shown.String env)) ∧
        shown.String env =
          "\x7b\"errcode\":" ++ FormatInt m.ErrCode ++ ",\"errmsg\":" ++ env.jsonString m.ErrMsg
            ++ hosts ++ "\x7d") := by
  constructor
  · by_cases hc : m.ErrCode = req.GetSuccessCode <;>
      simp [checkResponse, hr, hs, hm, hc]
  · intro hc
    refine ⟨{ ErrCode := m.ErrCode, ErrMsg := m.ErrMsg,
              ApplicationHost := response.Header.Get "Application-Host",
              ServiceHost := response.Header.Get "Location-Host" },
      (if response.Header.Get "Application-Host" = "" then ""
        else ",\"application_host\":" ++ env.jsonString (response.Header.Get "Application-Host"))
      ++ (if response.Header.Get "Location-Host" = "" then ""
        else ",\"service_host\":" ++ env.jsonString (response.Header.Get "Location-Host")),
      rfl, rfl, ?_, ?_⟩
    · simp [checkResponse, hr, hs, hm, hc]
    · simp [ResponseMsg.String, jsonMarshal, String.append_assoc]

/-- C4 at a 200 response carrying code 310000 where 0 is expected. -/
theorem checkResponse_success_iff_code_witness :
    (sampleClient (some badSignResponse)).response = some badSignResponse ∧
    badSignResponse.StatusCode = 200 ∧
    sampleEnv.jsonUnmarshal badSignResponse.Body =
      .ok { ErrCode := 310000, ErrMsg := "bad sign", ApplicationHost := "", ServiceHost := "b" } ∧
    ((checkResponse sampleEnv (sampleClient (some badSignResponse)) (sampleRequest "POST")
        = .ret none ↔ (310000 : Int) = (sampleRequest "POST").GetSuccessCode) ∧
     ((310000 : Int) ≠ (sampleRequest "POST").GetSuccessCode →
      ∃ (shown : ResponseMsg) (hosts : String),
        shown.ErrCode = 310000 ∧ shown.ErrMsg = "bad sign" ∧
        checkResponse sampleEnv (sampleClient (some badSignResponse)) (sampleRequest "POST")
          = .ret (some (shown.String sampleEnv)) ∧
        shown.String sampleEnv =
          "\x7b\"errcode\":" ++ FormatInt 310000 ++ ",\"errmsg\":"
            ++ sampleEnv.jsonString "bad sign" ++ hosts ++ "\x7d")) :=
  ⟨rfl, rfl, rfl,
    checkResponse_success_iff_code sampleEnv (sampleClient (some badSignResponse))
      (sampleRequest "POST") badSignResponse
      { ErrCode := 310000, ErrMsg := "bad sign", ApplicationHost := "", ServiceHost := "b" }
      rfl rfl rfl⟩

/-- The two 200 responses of the examples: the mismatching code is reported with
the message as JSON, the matching code is accepted. -/
theorem checkResponse_ok_status_eval :
    checkResponse sampleEnv (sampleClient (some badSignResponse)) (sampleRequest "POST") =
      .ret (some ("\x7b\"errcode\":310000,\"errmsg\":\"bad sign\","
        ++ "\"application_host\":\"app.example\"\x7d")) ∧
    checkResponse sampleEnv (sampleClient (some okResponse)) (sampleRequest "POST") =
      .ret none := by
  decide

/-- C8: for a 200 response whose body decodes, the message that is checked and
reported has its application host and service host taken from the headers
`Application-Host` and `Location-Host` (empty when the header is absent), whatever
the body supplied for them; the headers never decide success. -/
theorem checkResponse_hosts_from_headers (env : Env) (dt : DingTalk) (req : Requester)
    (response : Response) (m : ResponseMsg) (hr : dt.response = some response)
    (hs : response.StatusCode = 200) (hm : env.jsonUnmarshal response.Body = .ok m) :
    checkResponse env dt req =
      (if m.ErrCode ≠ req.GetSuccessCode then
        .ret (some (ResponseMsg.String env
          { ErrCode := m.ErrCode, ErrMsg := m.ErrMsg,
            ApplicationHost := response.Header.Get "Application-Host",
            ServiceHost := response.Header.Get "Location-Host" }))
      else .ret none) ∧
    (∀ key : String, response.Header.lookup key = none → response.Header.Get key = "") ∧
    (∀ (key v : String) (vs : List String),
      response.Header.lookup key = some (v :: vs) → response.Header.Get key = v) ∧
    (∀ (env2 : Env) (m2 : ResponseMsg), env2.jsonString = env.jsonString →
      env2.jsonUnmarshal response.Body = .ok m2 →
      m2.ErrCode = m.ErrCode → m2.ErrMsg = m.ErrMsg →
      checkResponse env2 dt req = checkResponse env dt req) ∧
    (m.ErrCode = req.GetSuccessCode →
      ∀ header : Header,
        checkResponse env { dt with response := some { response with Header := header } } req
          = .ret none) := by
  have key : ∀ (e : Env) (n : ResponseMsg), e.jsonUnmarshal response.Body = .ok n →
      checkResponse e dt req =
        (if n.ErrCode ≠ req.GetSuccessCode then
          .ret (some (ResponseMsg.String e
            { ErrCode := n.ErrCode, ErrMsg := n.ErrMsg,
              ApplicationHost := response.Header.Get "Application-Host",
              ServiceHost := response.Header.Get "Location-Host" }))
        else .ret none) := by
    intro e n hn
    simp [checkResponse, hr, hs, hn]
  refine ⟨key env m hm, ?_, ?_, ?_, ?_⟩
  · intro k hk
    simp [Header.Get, hk]
  · intro k v vs hk
    simp [Header.Get, hk]
  · intro env2 m2 hj hm2 hc hmsg
    rw [key env m hm, key env2 m2 hm2, hc, hmsg]
    simp [ResponseMsg.String, jsonMarshal, hj]
  · intro hc header
    simp [checkResponse, hs, hm, hc]

/-- C8 at a 200 response whose body names a service host and whose headers name
an application host only. -/
theorem checkResponse_hosts_from_headers_witness :
    (sampleClient (some badSignResponse)).response = some badSignResponse ∧
    badSignResponse.StatusCode = 200 ∧
    sampleEnv.jsonUnmarshal badSignResponse.Body =
      .ok { ErrCode := 310000, ErrMsg := "bad sign", ApplicationHost := "", ServiceHost := "b" } ∧
    checkResponse sampleEnv (sampleClient (some badSignResponse)) (sampleRequest "POST") =
      (if (310000 : Int) ≠ (sampleRequest "POST").GetSuccessCode then
        .ret (some (ResponseMsg.String sampleEnv
          { ErrCode := 310000, ErrMsg := "bad sign",
            ApplicationHost := badSignResponse.Header.Get "Application-Host",
            ServiceHost := badSignResponse.Header.Get "Location-Host" }))
      else .ret none) ∧
    badSignResponse.Header.Get "Application-Host" = "app.example" ∧
    badSignResponse.Header.Get "Location-Host" = "" :=
  ⟨rfl, rfl, rfl,
    (checkResponse_hosts_from_headers sampleEnv (sampleClient (some badSignResponse))
      (sampleRequest "POST") badSignResponse
      { ErrCode := 310000, ErrMsg := "bad sign", ApplicationHost := "", ServiceHost := "b" }
      rfl rfl rfl).1,
    by decide, by decide⟩

/-! ## Dispatch -/

/-- Once the body is serialized and the resty client exists, `request` returns a
nil error, whatever the transport answered. -/
theorem request_returns_nil_error (env : Env) (dt : DingTalk) (req : Requester)
    (body : String) (c : Client) (hb : req.GetBody = .ok body) (hc : dt.client = some c) :
    (request env dt req).result = .ret (body, none) := by
  unfold request
  simp only [hb, hc]
  split_ifs <;> rfl

/-- C10: for a method other than GET, POST and PUT whose body serializes, the
dispatch step issues no transport call, returns a nil error and leaves the client
as it was, so `Request` returns the URL error if there is one and otherwise what
validating the previously stored response gives. -/
theorem request_other_method_no_dispatch (env : Env) (dt : DingTalk) (req : Requester)
    (body : String) (c : Client) (hb : req.GetBody = .ok body) (hc : dt.client = some c)
    (hget : req.GetMethod ≠ "GET") (hpost : req.GetMethod ≠ "POST")
    (hput : req.GetMethod ≠ "PUT") :
    (request env dt req).calls = [] ∧
    (request env dt req).result = .ret (body, none) ∧
    (request env dt req).dt = dt ∧
    (Request env dt req).calls = [] ∧
    (Request env dt req).dt = dt ∧
    (Request env dt req).result =
      (match checkURL env dt with
       | some err => .ret (some err)
       | none => checkResponse env dt req) := by
  have hreq : request env dt req = { dt := dt, calls := [], result := .ret (body, none) } := by
    simp [request, hb, hc, hget, hpost, hput]
  refine ⟨by rw [hreq], by rw [hreq], by rw [hreq], ?_, ?_, ?_⟩ <;>
  · unfold Request
    rw [hreq]
    cases checkURL env dt with
    | some err => rfl
    | none =>
      simp only
      cases checkResponse env dt req with
      | panic => rfl
      | ret e => cases e <;> rfl

/-- C10 at a DELETE request on a client that holds an earlier successful response. -/
theorem request_other_method_no_dispatch_witness :
    (sampleRequest "DELETE").GetBody = .ok "\x7b\"msgtype\":\"text\"\x7d" ∧
    (sampleClient (some okResponse)).client = some { timeout := 0 } ∧
    ((request sampleEnv (sampleClient (some okResponse)) (sampleRequest "DELETE")).calls = [] ∧
     (request sampleEnv (sampleClient (some okResponse)) (sampleRequest "DELETE")).result =
        .ret ("\x7b\"msgtype\":\"text\"\x7d", none) ∧
     (request sampleEnv (sampleClient (some okResponse)) (sampleRequest "DELETE")).dt =
        sampleClient (some okResponse) ∧
     (Request sampleEnv (sampleClient (some okResponse)) (sampleRequest "DELETE")).calls = [] ∧
     (Request sampleEnv (sampleClient (some okResponse)) (sampleRequest "DELETE")).dt =
        sampleClient (some okResponse) ∧
     (Request sampleEnv (sampleClient (some okResponse)) (sampleRequest "DELETE")).result =
      (match checkURL sampleEnv (sampleClient (some okResponse)) with
       | some err => .ret (some err)
       | none =>
        checkResponse sampleEnv (sampleClient (some okResponse)) (sampleRequest "DELETE"))) :=
  ⟨rfl, rfl,
    request_other_method_no_dispatch sampleEnv (sampleClient (some okResponse))
      (sampleRequest "DELETE") "\x7b\"msgtype\":\"text\"\x7d" { timeout := 0 } rfl rfl
      (by decide) (by decide) (by decide)⟩

/-- A DELETE request succeeds on a client holding an earlier successful response
and panics on a fresh client, which holds none. -/
theorem Request_other_method_eval :
    (Request sampleEnv (sampleClient (some okResponse)) (sampleRequest "DELETE")).result =
      .ret none ∧
    (Request sampleEnv (New sampleEnv "http://h" []) (sampleRequest "DELETE")).result =
      .panic := by
  decide

/-- C3 fails on the code: the transport answers a GET, a POST and a PUT with an
error, yet `request` returns a nil error, `Request` goes on to `checkResponse` on
the response the transport left, and the error `Request` returns is the HTTP status
error, not the transport error. -/
theorem Request_drops_transport_error :
    (∀ call : Call, (sampleEnv.transport call).2 = some "dial tcp: i/o timeout") ∧
    (request sampleEnv (New sampleEnv "http://h" []) (sampleRequest "GET")).calls =
      [{ method := "GET", url := "http://h?", header := [("Content-Type", "application/json")],
         body := none }] ∧
    (request sampleEnv (New sampleEnv "http://h" []) (sampleRequest "GET")).result =
      .ret ("\x7b\"msgtype\":\"text\"\x7d", none) ∧
    (Request sampleEnv (New sampleEnv "http://h" []) (sampleRequest "GET")).result =
      checkResponse sampleEnv
        (request sampleEnv (New sampleEnv "http://h" []) (sampleRequest "GET")).dt
        (sampleRequest "GET") ∧
    (Request sampleEnv (New sampleEnv "http://h" []) (sampleRequest "GET")).result =
      .ret (some "invalid http status 0, body: ") ∧
    (Request sampleEnv (New sampleEnv "http://h" []) (sampleRequest "GET")).result ≠
      .ret (some "dial tcp: i/o timeout") ∧
    (request sampleEnv (New sampleEnv "http://h" []) (sampleRequest "POST")).result =
      .ret ("\x7b\"msgtype\":\"text\"\x7d", none) ∧
    (Request sampleEnv (New sampleEnv "http://h" []) (sampleRequest "POST")).result =
      .ret (some "invalid http status 0, body: ") ∧
    (request sampleEnv (New sampleEnv "http://h" []) (sampleRequest "PUT")).result =
      .ret ("\x7b\"msgtype\":\"text\"\x7d", none) ∧
    (Request sampleEnv (New sampleEnv "http://h" []) (sampleRequest "PUT")).result =
      .ret (some "invalid http status 0, body: ") := by
  refine ⟨fun _ => rfl, ?_⟩
  decide

/-! ## Signature parameters -/

/-- `SetSecret` changes the secret and nothing else; the URL stays as `New` left it. -/
theorem SetSecret_url (dt : DingTalk) (secret : String) :
    (SetSecret dt secret).url = dt.url ∧ (SetSecret dt secret).secret = secret :=
  ⟨rfl, rfl⟩

/-- No sequence of `SetSecret` calls changes the URL. -/
theorem setSecrets_url (secrets : List String) :
    ∀ dt : DingTalk, (setSecrets dt secrets).url = dt.url := by
  induction secrets with
  | nil => intro dt; rfl
  | cons s rest ih =>
    intro dt
    have := ih (SetSecret dt s)
    simpa [setSecrets] using this

/-- Every transport call of `Request` goes to the client's stored URL. -/
theorem Request_calls_url (env : Env) (dt : DingTalk) (req : Requester) (call : Call)
    (h : call ∈ (Request env dt req).calls) : call.url = dt.url := by
  have hreq : ∀ c ∈ (request env dt req).calls, c.url = dt.url := by
    intro c hc
    cases hb : req.GetBody with
    | error e => simp [request, hb] at hc
    | ok body =>
      cases hcl : dt.client with
      | none => simp [request, hb, hcl] at hc
      | some cl =>
        by_cases h1 : req.GetMethod = "GET"
        · simp [request, hb, hcl, h1] at hc
          rw [hc]
        · by_cases h2 : req.GetMethod = "POST"
          · simp [request, hb, hcl, h2] at hc
            rw [hc]
          · by_cases h3 : req.GetMethod = "PUT"
            · simp [request, hb, hcl, h3] at hc
              rw [hc]
            · simp [request, hb, hcl, h1, h2, h3] at hc
  unfold Request at h
  split at h
  · simp at h
  · simp only at h
    split at h
    · exact hreq _ h
    · exact hreq _ h
    · split at h <;> exact hreq _ h

/-- C2 fails on the code: no sequence of `SetSecret` calls changes the URL that
`New` built; a client built without a secret and then given one by
`SetSecret` dispatches to a URL without `sign` and `timestamp`, and a client built
with a secret whose secret is then cleared by `SetSecret` still dispatches to the
signed URL. -/
theorem Request_url_ignores_SetSecret :
    (∀ (env : Env) (url : String) (options : List DingTalkOption) (secrets : List String),
      (setSecrets (New env url options) secrets).url = (New env url options).url) ∧
    (SetSecret (New sampleEnv "http://h" []) "s3cret").secret = "s3cret" ∧
    (Request sampleEnv (SetSecret (New sampleEnv "http://h" []) "s3cret")
        (sampleRequest "POST")).calls.map Call.url = ["http://h?"] ∧
    queryParamCount "sign" "http://h?" = 0 ∧
    queryParamCount "timestamp" "http://h?" = 0 ∧
    (SetSecret (New sampleEnv "http://h" [WithSecret "s3cret"]) "").secret = "" ∧
    (Request sampleEnv (SetSecret (New sampleEnv "http://h" [WithSecret "s3cret"]) "")
        (sampleRequest "POST")).calls.map Call.url =
      ["http://h?sign=sig%2Bs3cret&timestamp=1700000000123"] ∧
    queryParamCount "sign" "http://h?sign=sig%2Bs3cret&timestamp=1700000000123" = 1 ∧
    queryParamCount "timestamp" "http://h?sign=sig%2Bs3cret&timestamp=1700000000123" = 1 := by
  refine ⟨fun env url options secrets => setSecrets_url secrets _, ?_⟩
  decide

/-! ### Query escaping -/

theorem escape_plain : ∀ c ∈ plainChars,
    ((String.utf8EncodeChar c).map UInt8.toNat).flatMap escapeByte = [c] := by decide

theorem QueryEscape_plain (l : List Char) (h : ∀ c ∈ l, c ∈ plainChars) :
    QueryEscape (String.mk l) = String.mk l := by
  unfold QueryEscape
  congr 1
  induction l with
  | nil => rfl
  | cons c rest ih =>
    simp only [List.flatMap_cons, List.map_append, List.flatMap_append]
    rw [escape_plain c (h c (List.mem_cons_self _ _)),
      ih (fun d hd => h d (List.mem_cons_of_mem _ hd))]
    rfl

theorem digitChar_plain (m : Nat) (h : m < 10) : Nat.digitChar m ∈ plainChars := by
  interval_cases m <;> decide

theorem toDigitsCore_plain (fuel : Nat) : ∀ (n : Nat) (ds : List Char),
    (∀ c ∈ ds, c ∈ plainChars) → ∀ c ∈ Nat.toDigitsCore 10 fuel n ds, c ∈ plainChars := by
  induction fuel with
  | zero => intro n ds h; simpa [Nat.toDigitsCore] using h
  | succ fuel ih =>
    intro n ds h
    have hd : ∀ c ∈ Nat.digitChar (n % 10) :: ds, c ∈ plainChars := by
      intro c hc
      rcases List.mem_cons.mp hc with hc | hc
      · rw [hc]; exact digitChar_plain _ (Nat.mod_lt _ (by decide))
      · exact h c hc
    simp only [Nat.toDigitsCore]
    split_ifs
    · exact hd
    · exact ih _ _ hd

theorem repr_plain (n : Nat) : ∀ c ∈ (Nat.repr n).data, c ∈ plainChars := by
  simp only [Nat.repr, List.asString, Nat.toDigits]
  exact toDigitsCore_plain _ _ _ (by simp)

theorem FormatInt_plain (i : Int) : ∀ c ∈ (FormatInt i).data, c ∈ plainChars := by
  cases i with
  | ofNat m => exact repr_plain m
  | negSucc m =>
    intro c hc
    have : (FormatInt (Int.negSucc m)).data = '-' :: (Nat.repr (m + 1)).data := rfl
    rw [this] at hc
    rcases List.mem_cons.mp hc with hc | hc
    · rw [hc]; decide
    · exact repr_plain _ c hc

/-- A decimal number is its own query escape. -/
theorem QueryEscape_FormatInt (i : Int) : QueryEscape (FormatInt i) = FormatInt i :=
  QueryEscape_plain (FormatInt i).data (FormatInt_plain i)

set_option maxRecDepth 100000 in
theorem escapeByte_no_amp : ∀ b : Fin 256, '&' ∉ escapeByte b.val := by decide

/-- The query escape of a string contains no `&`. -/
theorem QueryEscape_no_amp (s : String) : '&' ∉ (QueryEscape s).data := by
  unfold QueryEscape
  simp only [List.mem_flatMap, List.mem_map, not_exists, not_and]
  intro b hb
  obtain ⟨u, -, rfl⟩ := hb
  exact escapeByte_no_amp ⟨u.toNat, u.val.isLt⟩

theorem FormatInt_no_amp (i : Int) : '&' ∉ (FormatInt i).data := by
  intro h
  have := FormatInt_plain i _ h
  revert this
  decide

/-! ### The encoded parameters -/

/-- The method `genQueryParams` in closed form. -/
theorem genQueryParams_eq (env : Env) (dt : DingTalk) :
    genQueryParams env dt = if dt.secret = "" then "" else signatureParams env dt.secret := by
  unfold genQueryParams
  by_cases h : dt.secret = ""
  · simp only [h, ne_eq, not_true_eq_false, if_false, if_true]
    rfl
  · simp only [h, ne_eq, not_false_eq_true, if_true, if_false]
    have hsign : QueryEscape "sign" = "sign" := by decide
    have hts : QueryEscape "timestamp" = "timestamp" := by decide
    have hne : ∀ x : String, ¬ ("sign" ++ "=" ++ x = "") := by
      intro x hx
      have := congrArg String.length hx
      simp only [String.length_append] at this
      have h5 : ("sign" : String).length = 4 := by decide
      have h1 : ("=" : String).length = 1 := by decide
      have h0 : ("" : String).length = 0 := by decide
      omega
    have hadd : Values.Add (Values.Add [] "timestamp" (FormatInt (env.now.tdiv 1000000))) "sign"
        (env.ComputeSignature (env.now.tdiv 1000000) dt.secret) =
        [("timestamp", [FormatInt (env.now.tdiv 1000000)]),
         ("sign", [env.ComputeSignature (env.now.tdiv 1000000) dt.secret])] := by
      simp [Values.Add]
    rw [hadd]
    have hsort : sortByKey [("timestamp", [FormatInt (env.now.tdiv 1000000)]),
         ("sign", [env.ComputeSignature (env.now.tdiv 1000000) dt.secret])] =
        [("sign", [env.ComputeSignature (env.now.tdiv 1000000) dt.secret]),
         ("timestamp", [FormatInt (env.now.tdiv 1000000)])] := by
      have : lessChars "sign".data "timestamp".data = true := by decide
      simp [sortByKey, insertByKey, this]
    simp only [Values.Encode, hsort, List.foldl_cons, List.foldl_nil, encodePair, if_true,
      hsign, hts, QueryEscape_FormatInt]
    rw [if_neg (by simpa [String.append_assoc] using hne _)]
    apply String.ext
    simp [signatureParams, String.data_append]

/-! ### Counting parameters -/

theorem fieldCount_append (name : String) (a b : List Char) :
    fieldCount name (a ++ '&' :: b) = fieldCount name a + fieldCount name b := by
  simp [fieldCount, splitOnChar_append]

theorem fieldCount_single (name : String) (l : List Char) (h : '&' ∉ l) :
    fieldCount name l =
      if l.takeWhile (fun c => c ≠ '=') = name.data then 1 else 0 := by
  simp only [fieldCount, splitOnChar_of_not_mem _ _ h, List.filter_cons, List.filter_nil]
  split_ifs <;> simp_all

theorem signatureParams_data (env : Env) (secret : String) :
    (signatureParams env secret).data =
      (['s', 'i', 'g', 'n', '='] ++
          (QueryEscape (env.ComputeSignature (env.now.tdiv 1000000) secret)).data) ++
        '&' :: (['t', 'i', 'm', 'e', 's', 't', 'a', 'm', 'p', '='] ++
          (FormatInt (env.now.tdiv 1000000)).data) := by
  simp [signatureParams, String.data_append]

/-- The encoded signature parameters hold `sign` once and `timestamp` once. -/
theorem fieldCount_signatureParams (env : Env) (secret : String) :
    fieldCount "sign" (signatureParams env secret).data = 1 ∧
    fieldCount "timestamp" (signatureParams env secret).data = 1 := by
  have h1 : '&' ∉ ['s', 'i', 'g', 'n', '='] ++
      (QueryEscape (env.ComputeSignature (env.now.tdiv 1000000) secret)).data := by
    intro h
    rcases List.mem_append.mp h with h | h
    · revert h; decide
    · exact QueryEscape_no_amp _ h
  have h2 : '&' ∉ ['t', 'i', 'm', 'e', 's', 't', 'a', 'm', 'p', '='] ++
      (FormatInt (env.now.tdiv 1000000)).data := by
    intro h
    rcases List.mem_append.mp h with h | h
    · revert h; decide
    · exact FormatInt_no_amp _ h
  have k1 : ∀ rest : List Char,
      (['s', 'i', 'g', 'n', '='] ++ rest).takeWhile (fun c => c ≠ '=') =
        ['s', 'i', 'g', 'n'] := fun _ => rfl
  have k2 : ∀ rest : List Char,
      (['t', 'i', 'm', 'e', 's', 't', 'a', 'm', 'p', '='] ++ rest).takeWhile
        (fun c => c ≠ '=') = ['t', 'i', 'm', 'e', 's', 't', 'a', 'm', 'p'] := fun _ => rfl
  rw [signatureParams_data, fieldCount_append, fieldCount_append,
    fieldCount_single _ _ h1, fieldCount_single _ _ h2,
    fieldCount_single _ _ h1, fieldCount_single _ _ h2, k1, k2]
  constructor <;> decide

theorem dropWhile_append_of_mem (p : Char → Bool) (a b : List Char)
    (h : ∃ c ∈ a, p c = false) :
    ((a ++ b).dropWhile p).drop 1 = (a.dropWhile p).drop 1 ++ b := by
  induction a with
  | nil => simp at h
  | cons c rest ih =>
    by_cases hc : p c = true
    · have hr : ∃ d ∈ rest, p d = false := by
        obtain ⟨d, hd, hpd⟩ := h
        rcases List.mem_cons.mp hd with e | e
        · rw [e, hc] at hpd; cases hpd
        · exact ⟨d, e, hpd⟩
      simp [List.dropWhile, hc, ih hr]
    · simp [List.dropWhile, hc]

theorem dropWhile_append_of_not_mem (p : Char → Bool) (a b : List Char)
    (h : ∀ c ∈ a, p c = true) :
    (a ++ b).dropWhile p = b.dropWhile p := by
  induction a with
  | nil => rfl
  | cons c rest ih =>
    simp [List.dropWhile, h c (List.mem_cons_self _ _),
      ih (fun d hd => h d (List.mem_cons_of_mem _ hd))]

/-- The parameters of `url ++ step url ++ params` are those of `url` and those of
`params`. -/
theorem queryParamCount_join (name url params : String) (hn : name.data ≠ []) :
    queryParamCount name (url ++ step url ++ params) =
      queryParamCount name url + fieldCount name params.data := by
  unfold queryParamCount step
  by_cases hq : '?' ∈ url.data
  · have hdata : (url ++ "&" ++ params).data = url.data ++ '&' :: params.data := by
      simp [String.data_append]
    simp only [hq, if_true, hdata]
    rw [dropWhile_append_of_mem _ _ _ ⟨'?', hq, by decide⟩, fieldCount_append]
  · have hdata : (url ++ "?" ++ params).data = url.data ++ '?' :: params.data := by
      simp [String.data_append]
    have hall : ∀ c ∈ url.data, (fun c => decide (c ≠ '?')) c = true := by
      intro c hc
      have : c ≠ '?' := fun e => hq (e ▸ hc)
      simpa using this
    simp only [hq, if_false, hdata]
    rw [dropWhile_append_of_not_mem _ _ _ hall]
    have hnone : url.data.dropWhile (fun c => decide (c ≠ '?')) = [] := by
      have := dropWhile_append_of_not_mem _ url.data [] hall
      simpa using this
    rw [hnone]
    have h0 : fieldCount name [] = 0 := by
      simp [fieldCount, splitOnChar, Ne.symm hn]
    simp [List.dropWhile, h0]

/-! ### The endpoint after construction -/

/-- C1, as the claim states it, fails: without a secret the endpoint is not the
base endpoint, a separator has been appended to it. -/
theorem New_without_secret_changes_url :
    (New sampleEnv "http://h" []).secret = "" ∧
    (New sampleEnv "http://h" []).url = "http://h?" ∧
    (New sampleEnv "http://h" []).url ≠ "http://h" := by
  decide

/-- C1, amended: after `New` the endpoint is the base endpoint, then the separator
(`?`, or `&` when the base endpoint already holds a `?`), then the encoded
signature parameters `sign` and `timestamp` if and only if the secret is non-empty
and nothing otherwise; so the endpoint holds one `sign` and one `timestamp`
parameter more than the base endpoint exactly when a secret is configured. -/
theorem New_url_signed_iff_secret (env : Env) (url : String) (args : List OptionArg) :
    (New env url (args.map OptionArg.toOption)).url =
      url ++ (if '?' ∈ url.data then "&" else "?") ++
        (if (New env url (args.map OptionArg.toOption)).secret = "" then ""
         else "sign=" ++ QueryEscape (env.ComputeSignature (env.now.tdiv 1000000)
                (New env url (args.map OptionArg.toOption)).secret)
              ++ "&timestamp=" ++ FormatInt (env.now.tdiv 1000000)) ∧
    queryParamCount "sign" (New env url (args.map OptionArg.toOption)).url =
      queryParamCount "sign" url +
        (if (New env url (args.map OptionArg.toOption)).secret = "" then 0 else 1) ∧
    queryParamCount "timestamp" (New env url (args.map OptionArg.toOption)).url =
      queryParamCount "timestamp" url +
        (if (New env url (args.map OptionArg.toOption)).secret = "" then 0 else 1) := by
  have hurl : (New env url (args.map OptionArg.toOption)).url =
      url ++ step url ++
        (if (New env url (args.map OptionArg.toOption)).secret = "" then ""
         else signatureParams env (New env url (args.map OptionArg.toOption)).secret) := by
    simp only [New, foldl_options, initClient, genQueryParams_eq]
  have hempty : fieldCount "sign" ("" : String).data = 0 ∧
      fieldCount "timestamp" ("" : String).data = 0 := by decide
  refine ⟨hurl, ?_, ?_⟩
  · rw [hurl, queryParamCount_join _ _ _ (by decide)]
    split_ifs
    · rw [hempty.1]
    · rw [(fieldCount_signatureParams env _).1]
  · rw [hurl, queryParamCount_join _ _ _ (by decide)]
    split_ifs
    · rw [hempty.2]
    · rw [(fieldCount_signatureParams env _).2]

/-- The endpoint built from a base endpoint with a query and a secret. -/
theorem New_url_eval :
    (New sampleEnv "http://h?access_token=t" [WithTimeout 3, WithSecret "k"]).url =
      "http://h?access_token=t&sign=sig%2Bk&timestamp=1700000000123" := by
  decide

end Dingtalk
